import Mathlib

/-!
Shallow embedding of `src/utils/TimeKeeper.ts` (the clock service of the
repository) and proofs of the specification's claims about it.

Modelling conventions:
* Instants are milliseconds as `Nat` (as returned by `Date.now()`); the
  drift computation, which can be negative, is carried out in `Int`.
* A listener is identified by a `Nat` (JS listener identity); the
  `Map<EventName, Set<Listener>>` becomes a record of duplicate-free
  insertion-ordered lists, with `Set.add` / `Set.delete` semantics.
* `window.setTimeout` handles are positive `Nat`s handed out by a counter
  (browser timer ids are positive integers, so the JS truthiness test
  `if (this.tickTimer)` is modelled by `jsTruthy`).
* Side effects (arming/cancelling timers, restarts, `emit` calls and the
  individual listener invocations they perform) are reified as a trace of
  `Effect`s returned next to the post-state.
* `zonedNow()` (locale conversion via `toLocaleString`) is abstracted as
  the pair of the current instant and the active timezone id; no claim
  depends on the locale arithmetic itself.
-/

inductive AlignMode where
  | none
  | second
  | minute
deriving DecidableEq, Repr

inductive TransitionMode where
  | preserveWallClock
  | preserveAbsolute
deriving DecidableEq, Repr

inductive EventName where
  | second
  | minute
  | hour
  | timezoneChange
deriving DecidableEq, Repr

/-- Event payloads: tick events carry the zoned instant (instant plus the
active timezone id, the locale rendering being abstracted);
`timezoneChange` carries `{from, to, mode}`. -/
inductive Payload where
  | zoned (instant : Nat) (tz : String)
  | tzChange (fromTz : String) (toTz : String) (mode : TransitionMode)
deriving DecidableEq, Repr

/-- One observable effect of running a method of the class. -/
inductive Effect where
  | armed (h : Nat) (delay : Nat)
  | cancelled (h : Nat)
  | restarted
  | emitted (e : EventName) (p : Payload)
  | invoked (l : Nat) (e : EventName) (p : Payload)
deriving DecidableEq, Repr

/-- The `listeners : Map<EventName, Set<Listener>>` field: per event kind, a
duplicate-free list of listener identities in insertion order. -/
structure ListenerMap where
  second : List Nat
  minute : List Nat
  hour : List Nat
  timezoneChange : List Nat
deriving DecidableEq, Repr

def ListenerMap.get (m : ListenerMap) : EventName → List Nat
  | .second => m.second
  | .minute => m.minute
  | .hour => m.hour
  | .timezoneChange => m.timezoneChange

def ListenerMap.set (m : ListenerMap) : EventName → List Nat → ListenerMap
  | .second, ls => { m with second := ls }
  | .minute, ls => { m with minute := ls }
  | .hour, ls => { m with hour := ls }
  | .timezoneChange, ls => { m with timezoneChange := ls }

def ListenerMap.empty : ListenerMap := ⟨[], [], [], []⟩

/-- State of one `TimeKeeper` instance, together with the host-side timer
table (`liveTimers`: handles armed and not yet fired/cancelled; `nextHandle`:
the next id `window.setTimeout` will return) and whether the
`visibilitychange` handler is currently attached to the document. -/
structure TimeKeeper where
  timezone : String
  align : AlignMode
  visibilityAware : Bool
  driftThresholdMs : Nat
  listeners : ListenerMap
  tickTimer : Option Nat
  lastTick : Nat
  liveTimers : List Nat
  nextHandle : Nat
  visibilityAttached : Bool
deriving DecidableEq, Repr

/-- JS truthiness of the `tickTimer : number | null` field: `null` and `0`
are falsy. -/
def jsTruthy : Option Nat → Bool
  | Option.none => false
  | some h => h ≠ 0

namespace TimeKeeper

/-- Source `on`: `if (!listeners.has(e)) listeners.set(e, new Set()); listeners.get(e)!.add(l)` —
`Set.add` is a no-op on a present element, otherwise appends. -/
def on' (e : EventName) (l : Nat) (s : TimeKeeper) : TimeKeeper :=
  let ls := s.listeners.get e
  let ls' := if l ∈ ls then ls else ls ++ [l]
  { s with listeners := s.listeners.set e ls' }

/-- Source `off`: `listeners.get(e)?.delete(l)` — removes `l` if present, no-op
otherwise. -/
def off (e : EventName) (l : Nat) (s : TimeKeeper) : TimeKeeper :=
  { s with listeners := s.listeners.set e ((s.listeners.get e).filter (· ≠ l)) }

/-- Source `emit`: `listeners.get(e)?.forEach(cb => cb(payload))` — records the emit
and one invocation per registered listener, in insertion order (the
non-throwing case; throwing listeners are modelled by `dispatchWithThrows`
below). -/
def emit (e : EventName) (p : Payload) (s : TimeKeeper) : TimeKeeper × List Effect :=
  (s, Effect.emitted e p :: (s.listeners.get e).map (fun l => Effect.invoked l e p))

/-- Source `zonedNow()` abstracted: the current instant tagged with the active
timezone. -/
def zonedNow (now : Nat) (s : TimeKeeper) : Payload :=
  Payload.zoned now s.timezone

/-- The delay computed by `scheduleNextTick`:
`1000` by default, `60000 - now % 60000` for minute align,
`1000 - now % 1000` for second align. -/
def tickDelay (align : AlignMode) (now : Nat) : Nat :=
  match align with
  | .minute => 60000 - now % 60000
  | .second => 1000 - now % 1000
  | .none => 1000

/-- Source `scheduleNextTick`: computes the aligned delay and arms one timer via
`window.setTimeout`, storing its handle in `tickTimer`. -/
def scheduleNextTick (now : Nat) (s : TimeKeeper) : TimeKeeper × List Effect :=
  let h := s.nextHandle
  ({ s with tickTimer := some h
            liveTimers := s.liveTimers ++ [h]
            nextHandle := h + 1 },
   [Effect.armed h (tickDelay s.align now)])

/-- The statement `if (this.tickTimer) clearTimeout(this.tickTimer)` shared
by `restart` and `dispose`: when `tickTimer` is JS-truthy, drop that handle
from the host timer table. -/
def clearPending (s : TimeKeeper) : TimeKeeper × List Effect :=
  match s.tickTimer with
  | some h =>
      if h ≠ 0 then
        ({ s with liveTimers := s.liveTimers.erase h }, [Effect.cancelled h])
      else (s, ([] : List Effect))
  | Option.none => (s, ([] : List Effect))

/-- Source `restart`: `if (this.tickTimer) clearTimeout(this.tickTimer); this.scheduleNextTick()`. -/
def restart (now : Nat) (s : TimeKeeper) : TimeKeeper × List Effect :=
  let (s1, eff1) := clearPending s
  let (s2, eff2) := scheduleNextTick now s1
  (s2, Effect.restarted :: (eff1 ++ eff2))

/-- The expected instant `handleTick` compares the firing instant against:
the code computes `drift = now - (this.lastTick + 60000)` unconditionally. -/
def expectedInstant (s : TimeKeeper) : Nat :=
  s.lastTick + 60000

/-- Source `handleTick`: drift check against `lastTick + 60000` (skipped when
`lastTick === 0`); on rejection restart and return; on acceptance record
`lastTick = now`, emit the align-mode event, always emit `hour`, then
re-arm. -/
def handleTick (now : Nat) (s : TimeKeeper) : TimeKeeper × List Effect :=
  let drift : Int := (now : Int) - ((s.lastTick : Int) + 60000)
  if s.lastTick ≠ 0 ∧ drift.natAbs > s.driftThresholdMs then
    restart now s
  else
    let s1 := { s with lastTick := now }
    let (s2, eff2) :=
      if s1.align = AlignMode.minute then emit .minute (zonedNow now s1) s1
      else (s1, ([] : List Effect))
    let (s3, eff3) :=
      if s2.align = AlignMode.second then emit .second (zonedNow now s2) s2
      else (s2, ([] : List Effect))
    let (s4, eff4) := emit .hour (zonedNow now s3) s3
    let (s5, eff5) := scheduleNextTick now s4
    (s5, eff2 ++ eff3 ++ eff4 ++ eff5)

/-- Source `setTimeZone(tz, mode = "preserve-wall-clock")`: record `prev`, assign
the new timezone, `restart()`, then emit `timezoneChange {from, to, mode}`. -/
def setTimeZone (tz : String) (mode : TransitionMode := .preserveWallClock)
    (now : Nat) (s : TimeKeeper) : TimeKeeper × List Effect :=
  let prev := s.timezone
  let s1 := { s with timezone := tz }
  let (s2, eff2) := restart now s1
  let (s3, eff3) := emit .timezoneChange (.tzChange prev tz mode) s2
  (s3, eff2 ++ eff3)

/-- Source `handleVisibility`: on the document becoming visible again, restart. -/
def handleVisibility (hidden : Bool) (now : Nat) (s : TimeKeeper) : TimeKeeper × List Effect :=
  if !hidden then restart now s else (s, [])

/-- Source `dispose`: cancel the pending timer (JS-truthy test), detach the
visibility handler, clear every listener set. `tickTimer` itself is not
nulled by the source. -/
def dispose (s : TimeKeeper) : TimeKeeper × List Effect :=
  let (s1, eff1) := clearPending s
  ({ s1 with visibilityAttached := false, listeners := ListenerMap.empty }, eff1)

/-- Calling `setTimeZone` as called with a single argument: the source default is
`mode = "preserve-wall-clock"`. -/
def setTimeZoneDefault (tz : String) (now : Nat) (s : TimeKeeper) : TimeKeeper × List Effect :=
  setTimeZone tz .preserveWallClock now s

end TimeKeeper

/-- Constructor options with their defaults (`timezone` "Asia/Seoul",
`align` minute, `visibilityAware` true, `driftThresholdMs` 250). -/
structure TimeKeeperOptions where
  timezone : Option String := Option.none
  align : Option AlignMode := Option.none
  visibilityAware : Option Bool := Option.none
  driftThresholdMs : Option Nat := Option.none

/-- The constructor: apply defaults, attach the visibility handler when
`visibilityAware`, then `start()` (= first `scheduleNextTick`). -/
def TimeKeeper.mk' (opts : TimeKeeperOptions) (now : Nat) : TimeKeeper × List Effect :=
  let va := opts.visibilityAware.getD true
  let s0 : TimeKeeper :=
    { timezone := opts.timezone.getD "Asia/Seoul"
      align := opts.align.getD .minute
      visibilityAware := va
      driftThresholdMs := opts.driftThresholdMs.getD 250
      listeners := ListenerMap.empty
      tickTimer := Option.none
      lastTick := 0
      liveTimers := []
      nextHandle := 1
      visibilityAttached := va }
  TimeKeeper.scheduleNextTick now s0

/-- Host-level stimuli delivered to a live instance. -/
inductive HostEvent where
  | setTZ (tz : String) (mode : TransitionMode)
  | visibility (hidden : Bool)
  | fireTimer (h : Nat)
  | subscribe (e : EventName) (l : Nat)
  | unsubscribe (e : EventName) (l : Nat)
  | disposeCall
deriving DecidableEq, Repr

/-- One host step at instant `ev.1`: a timer only fires if its handle is
still live (firing consumes the handle); the visibility callback only runs
while attached. -/
def step (s : TimeKeeper) (ev : Nat × HostEvent) : TimeKeeper × List Effect :=
  match ev.2 with
  | .setTZ tz mode => TimeKeeper.setTimeZone tz mode ev.1 s
  | .visibility hidden =>
      if s.visibilityAttached then TimeKeeper.handleVisibility hidden ev.1 s
      else (s, [])
  | .fireTimer h =>
      if h ∈ s.liveTimers then
        TimeKeeper.handleTick ev.1 { s with liveTimers := s.liveTimers.erase h }
      else (s, [])
  | .subscribe e l => (TimeKeeper.on' e l s, [])
  | .unsubscribe e l => (TimeKeeper.off e l s, [])
  | .disposeCall => TimeKeeper.dispose s

/-- Run a sequence of host events, accumulating the effect trace. -/
def runTrace (s : TimeKeeper) : List (Nat × HostEvent) → TimeKeeper × List Effect
  | [] => (s, [])
  | ev :: evs =>
      let (s1, eff1) := step s ev
      let (s2, eff2) := runTrace s1 evs
      (s2, eff1 ++ eff2)

/-- Host stimuli that carry no instruction to the instance: a (possibly
stale) timer firing or a visibility change. -/
def passive : HostEvent → Bool
  | .fireTimer _ => true
  | .visibility _ => true
  | _ => false

/-- Embedding of the dispatch loop of `emit` for the case where listener
callbacks may throw: `Set.forEach` under JS exception semantics, so the
first throwing callback aborts the loop and its exception propagates to
`emit`'s caller. `throws l` says whether callback `l` throws; the result is
the list of callbacks actually invoked (in order) and the identity of the
thrower, if any, whose exception escapes. -/
def dispatchWithThrows (throws : Nat → Bool) : List Nat → List Nat × Option Nat
  | [] => ([], Option.none)
  | l :: rest =>
      if throws l then ([l], some l)
      else
        let r := dispatchWithThrows throws rest
        (l :: r.1, r.2)

/-- Projections of an effect trace. -/
def emittedOf (effs : List Effect) : List (EventName × Payload) :=
  effs.filterMap fun
    | .emitted e p => some (e, p)
    | _ => Option.none

def invokedOf (effs : List Effect) : List (Nat × EventName × Payload) :=
  effs.filterMap fun
    | .invoked l e p => some (l, e, p)
    | _ => Option.none

def restartsIn (effs : List Effect) : Nat :=
  (effs.filter fun
    | .restarted => true
    | _ => false).length

def armedDelays (effs : List Effect) : List Nat :=
  effs.filterMap fun
    | .armed _ d => some d
    | _ => Option.none

/-- The key state invariant: handles are positive, and at most one timer is
live, in which case `tickTimer` holds its handle. -/
def KeeperInv (s : TimeKeeper) : Prop :=
  1 ≤ s.nextHandle ∧
  (s.liveTimers = [] ∨
    ∃ h, s.liveTimers = [h] ∧ s.tickTimer = some h ∧ 1 ≤ h)

lemma ListenerMap.get_set (m : ListenerMap) (e : EventName) (ls : List Nat) :
    (m.set e ls).get e = ls := by
  cases e <;> rfl

lemma ListenerMap.set_get (m : ListenerMap) (e : EventName) :
    m.set e (m.get e) = m := by
  cases e <;> rfl

lemma ListenerMap.set_set (m : ListenerMap) (e : EventName) (ls1 ls2 : List Nat) :
    (m.set e ls1).set e ls2 = m.set e ls2 := by
  cases e <;> rfl

lemma emittedOf_nil : emittedOf [] = [] := rfl

lemma emittedOf_append (a b : List Effect) :
    emittedOf (a ++ b) = emittedOf a ++ emittedOf b := by
  simp [emittedOf]

lemma invokedOf_append (a b : List Effect) :
    invokedOf (a ++ b) = invokedOf a ++ invokedOf b := by
  simp [invokedOf]

lemma restartsIn_append (a b : List Effect) :
    restartsIn (a ++ b) = restartsIn a + restartsIn b := by
  simp [restartsIn]

lemma armedDelays_append (a b : List Effect) :
    armedDelays (a ++ b) = armedDelays a ++ armedDelays b := by
  simp [armedDelays]

lemma clearPending_state (s : TimeKeeper) :
    (TimeKeeper.clearPending s).1 =
      { s with liveTimers := (TimeKeeper.clearPending s).1.liveTimers } := by
  rcases htt : s.tickTimer with _ | h
  · have heq : TimeKeeper.clearPending s = (s, []) := by
      simp [TimeKeeper.clearPending, htt]
    rw [heq, ← htt]
  · by_cases h0 : h = 0
    · have heq : TimeKeeper.clearPending s = (s, []) := by
        simp [TimeKeeper.clearPending, htt, h0]
      rw [heq, ← htt]
    · have heq : TimeKeeper.clearPending s =
          ({ s with liveTimers := s.liveTimers.erase h }, [Effect.cancelled h]) := by
        simp [TimeKeeper.clearPending, htt, h0]
      rw [heq, ← htt]

lemma clearPending_live_of_inv (s : TimeKeeper) (h : KeeperInv s) :
    (TimeKeeper.clearPending s).1.liveTimers = [] := by
  obtain ⟨h1, hl | ⟨k, hk, ht, hk1⟩⟩ := h
  · rcases htt : s.tickTimer with _ | m
    · simp [TimeKeeper.clearPending, htt, hl]
    · by_cases m0 : m = 0 <;> simp [TimeKeeper.clearPending, htt, m0, hl]
  · have k0 : ¬ k = 0 := by omega
    simp [TimeKeeper.clearPending, ht, k0, hk]

lemma scheduleNextTick_state (now : Nat) (s : TimeKeeper) :
    (TimeKeeper.scheduleNextTick now s).1 =
      { s with tickTimer := some s.nextHandle,
               liveTimers := s.liveTimers ++ [s.nextHandle],
               nextHandle := s.nextHandle + 1 } := rfl

lemma scheduleNextTick_eff (now : Nat) (s : TimeKeeper) :
    (TimeKeeper.scheduleNextTick now s).2 =
      [Effect.armed s.nextHandle (TimeKeeper.tickDelay s.align now)] := rfl

lemma keeperInv_schedule (now : Nat) (s : TimeKeeper)
    (h1 : 1 ≤ s.nextHandle) (h2 : s.liveTimers = []) :
    KeeperInv (TimeKeeper.scheduleNextTick now s).1 := by
  refine ⟨?_, Or.inr ⟨s.nextHandle, ?_, rfl, h1⟩⟩
  · show 1 ≤ s.nextHandle + 1
    omega
  · show s.liveTimers ++ [s.nextHandle] = [s.nextHandle]
    simp [h2]

lemma restart_fst (now : Nat) (s : TimeKeeper) :
    (TimeKeeper.restart now s).1 =
      (TimeKeeper.scheduleNextTick now (TimeKeeper.clearPending s).1).1 := rfl

lemma keeperInv_restart (now : Nat) (s : TimeKeeper) (h : KeeperInv s) :
    KeeperInv (TimeKeeper.restart now s).1 := by
  rw [restart_fst]
  apply keeperInv_schedule
  · rw [clearPending_state s]
    exact h.1
  · exact clearPending_live_of_inv s h

/-- The rejection test of `handleTick`, as written in the source. -/
abbrev rejects (now : Nat) (s : TimeKeeper) : Prop :=
  s.lastTick ≠ 0 ∧ ((now : Int) - ((s.lastTick : Int) + 60000)).natAbs > s.driftThresholdMs

lemma handleTick_reject (now : Nat) (s : TimeKeeper) (h : rejects now s) :
    TimeKeeper.handleTick now s = TimeKeeper.restart now s := by
  simp only [TimeKeeper.handleTick]
  rw [if_pos h]

lemma handleTick_accept (now : Nat) (s : TimeKeeper) (h : ¬ rejects now s) :
    TimeKeeper.handleTick now s =
      ((TimeKeeper.scheduleNextTick now { s with lastTick := now }).1,
        (if s.align = AlignMode.minute
          then (TimeKeeper.emit .minute (Payload.zoned now s.timezone) { s with lastTick := now }).2
          else []) ++
        (if s.align = AlignMode.second
          then (TimeKeeper.emit .second (Payload.zoned now s.timezone) { s with lastTick := now }).2
          else []) ++
        (TimeKeeper.emit .hour (Payload.zoned now s.timezone) { s with lastTick := now }).2 ++
        (TimeKeeper.scheduleNextTick now { s with lastTick := now }).2) := by
  simp only [TimeKeeper.handleTick]
  rw [if_neg h]
  rcases halign : s.align <;>
    simp [TimeKeeper.emit, TimeKeeper.zonedNow, halign]

lemma keeperInv_handleTick (now : Nat) (s : TimeKeeper)
    (h1 : 1 ≤ s.nextHandle) (h2 : s.liveTimers = []) :
    KeeperInv (TimeKeeper.handleTick now s).1 := by
  by_cases hc : rejects now s
  · rw [handleTick_reject now s hc]
    exact keeperInv_restart now s ⟨h1, Or.inl h2⟩
  · rw [handleTick_accept now s hc]
    exact keeperInv_schedule now _ h1 h2

lemma keeperInv_on (e : EventName) (l : Nat) (s : TimeKeeper) (h : KeeperInv s) :
    KeeperInv (TimeKeeper.on' e l s) := by
  obtain ⟨h1, h2⟩ := h
  exact ⟨h1, h2⟩

lemma keeperInv_off (e : EventName) (l : Nat) (s : TimeKeeper) (h : KeeperInv s) :
    KeeperInv (TimeKeeper.off e l s) := by
  obtain ⟨h1, h2⟩ := h
  exact ⟨h1, h2⟩

lemma setTimeZone_fst (tz : String) (mode : TransitionMode) (now : Nat) (s : TimeKeeper) :
    (TimeKeeper.setTimeZone tz mode now s).1 =
      (TimeKeeper.restart now { s with timezone := tz }).1 := rfl

lemma dispose_fst (s : TimeKeeper) :
    (TimeKeeper.dispose s).1 =
      { (TimeKeeper.clearPending s).1 with
          visibilityAttached := false, listeners := ListenerMap.empty } := rfl

lemma keeperInv_dispose (s : TimeKeeper) (h : KeeperInv s) :
    KeeperInv (TimeKeeper.dispose s).1 := by
  rw [dispose_fst]
  constructor
  · show 1 ≤ (TimeKeeper.clearPending s).1.nextHandle
    rw [clearPending_state s]
    exact h.1
  · exact Or.inl (clearPending_live_of_inv s h)

lemma keeperInv_step (s : TimeKeeper) (ev : Nat × HostEvent) (h : KeeperInv s) :
    KeeperInv (step s ev).1 := by
  rcases ev with ⟨now, e⟩
  cases e with
  | setTZ tz mode =>
      have heq : (step s (now, HostEvent.setTZ tz mode)).1 =
          (TimeKeeper.restart now { s with timezone := tz }).1 := rfl
      rw [heq]
      exact keeperInv_restart now _ ⟨h.1, h.2⟩
  | visibility hidden =>
      show KeeperInv (if s.visibilityAttached
        then TimeKeeper.handleVisibility hidden now s else (s, [])).1
      by_cases ha : s.visibilityAttached
      · rw [if_pos ha]
        unfold TimeKeeper.handleVisibility
        by_cases hh : hidden
        · simp [hh, h]
        · simp [hh]
          exact keeperInv_restart now s h
      · rw [if_neg ha]
        exact h
  | fireTimer hdl =>
      show KeeperInv (if hdl ∈ s.liveTimers
        then TimeKeeper.handleTick now { s with liveTimers := s.liveTimers.erase hdl }
        else (s, [])).1
      by_cases hm : hdl ∈ s.liveTimers
      · rw [if_pos hm]
        rcases h.2 with hl | ⟨k, hk, ht, hk1⟩
        · rw [hl] at hm
          simp at hm
        · rw [hk] at hm
          simp at hm
          subst hm
          apply keeperInv_handleTick
          · exact h.1
          · show s.liveTimers.erase hdl = []
            rw [hk]
            simp
      · rw [if_neg hm]
        exact h
  | subscribe e l => exact keeperInv_on e l s h
  | unsubscribe e l => exact keeperInv_off e l s h
  | disposeCall => exact keeperInv_dispose s h

lemma runTrace_cons (s : TimeKeeper) (ev : Nat × HostEvent) (evs : List (Nat × HostEvent)) :
    runTrace s (ev :: evs) =
      ((runTrace (step s ev).1 evs).1, (step s ev).2 ++ (runTrace (step s ev).1 evs).2) := rfl

lemma keeperInv_runTrace (s : TimeKeeper) (evs : List (Nat × HostEvent)) (h : KeeperInv s) :
    KeeperInv (runTrace s evs).1 := by
  induction evs generalizing s with
  | nil => exact h
  | cons ev evs ih =>
      rw [runTrace_cons]
      exact ih _ (keeperInv_step s ev h)

lemma keeperInv_mk (opts : TimeKeeperOptions) (now : Nat) :
    KeeperInv (TimeKeeper.mk' opts now).1 := by
  apply keeperInv_schedule
  · exact Nat.le_refl 1
  · rfl

/-- C4: after any sequence of `setTimeZone` calls, visibility notifications,
timer firings (and also subscriptions and disposals) on an instance built by
the constructor, at most one host timer handle is pending at any inspection
point. -/
theorem C4_at_most_one_pending_timer (opts : TimeKeeperOptions) (now0 : Nat)
    (evs : List (Nat × HostEvent)) :
    (runTrace (TimeKeeper.mk' opts now0).1 evs).1.liveTimers.length ≤ 1 := by
  have h := keeperInv_runTrace (TimeKeeper.mk' opts now0).1 evs (keeperInv_mk opts now0)
  rcases h.2 with hl | ⟨k, hk, _, _⟩
  · rw [hl]
    exact Nat.zero_le 1
  · rw [hk]
    exact Nat.le_refl 1

lemma step_passive_silent (s : TimeKeeper) (now : Nat) (e : HostEvent)
    (h1 : s.liveTimers = []) (h2 : s.visibilityAttached = false)
    (hp : passive e = true) :
    step s (now, e) = (s, []) := by
  cases e with
  | setTZ tz mode => simp [passive] at hp
  | visibility hidden =>
      show (if s.visibilityAttached then TimeKeeper.handleVisibility hidden now s
            else (s, [])) = (s, [])
      rw [h2]
      simp
  | fireTimer hdl =>
      show (if hdl ∈ s.liveTimers
            then TimeKeeper.handleTick now { s with liveTimers := s.liveTimers.erase hdl }
            else (s, [])) = (s, [])
      rw [h1]
      simp
  | subscribe e l => simp [passive] at hp
  | unsubscribe e l => simp [passive] at hp
  | disposeCall => simp [passive] at hp

lemma runTrace_passive_silent (s : TimeKeeper) (evs : List (Nat × HostEvent))
    (h1 : s.liveTimers = []) (h2 : s.visibilityAttached = false)
    (hp : ∀ ev ∈ evs, passive ev.2 = true) :
    runTrace s evs = (s, []) := by
  induction evs with
  | nil => rfl
  | cons ev evs ih =>
      rcases ev with ⟨now, e⟩
      have hstep := step_passive_silent s now e h1 h2 (hp _ (List.mem_cons_self _ _))
      rw [runTrace_cons, hstep]
      have htail := ih (fun x hx => hp x (List.mem_cons_of_mem _ hx))
      rw [htail]
      rfl

lemma dispose_live (s : TimeKeeper) (h : KeeperInv s) :
    (TimeKeeper.dispose s).1.liveTimers = [] := by
  rw [dispose_fst]
  exact clearPending_live_of_inv s h

/-- C5: once `dispose()` has run on an instance (after any prior activity),
delivering any sequence of host timer firings and visibility signals, at
any instants whatsoever, produces an empty effect trace — in particular
zero emissions and zero listener invocations on every event kind. -/
theorem C5_dispose_is_final (opts : TimeKeeperOptions) (now0 : Nat)
    (evs1 : List (Nat × HostEvent)) (nowD : Nat) (evs2 : List (Nat × HostEvent))
    (hp : ∀ ev ∈ evs2, passive ev.2 = true) :
    (runTrace (step (runTrace (TimeKeeper.mk' opts now0).1 evs1).1
        (nowD, HostEvent.disposeCall)).1 evs2).2 = [] ∧
    emittedOf (runTrace (step (runTrace (TimeKeeper.mk' opts now0).1 evs1).1
        (nowD, HostEvent.disposeCall)).1 evs2).2 = [] ∧
    invokedOf (runTrace (step (runTrace (TimeKeeper.mk' opts now0).1 evs1).1
        (nowD, HostEvent.disposeCall)).1 evs2).2 = [] := by
  have hinv := keeperInv_runTrace (TimeKeeper.mk' opts now0).1 evs1 (keeperInv_mk opts now0)
  have hrun : runTrace (step (runTrace (TimeKeeper.mk' opts now0).1 evs1).1
      (nowD, HostEvent.disposeCall)).1 evs2 =
      ((step (runTrace (TimeKeeper.mk' opts now0).1 evs1).1 (nowD, HostEvent.disposeCall)).1, []) := by
    apply runTrace_passive_silent _ _ _ _ hp
    · exact dispose_live _ hinv
    · rfl
  rw [hrun]
  exact ⟨rfl, rfl, rfl⟩

/-- C5 witness: a concrete run — construct, fire the first timer, dispose,
then deliver a stale timer firing, a visibility resume and another firing;
nothing is emitted. -/
theorem C5_dispose_is_final_witness :
    (runTrace (step (runTrace (TimeKeeper.mk' {} 0).1 [(60000, HostEvent.fireTimer 1)]).1
        (61000, HostEvent.disposeCall)).1
        [(120000, HostEvent.fireTimer 2), (120500, HostEvent.visibility false),
         (180000, HostEvent.fireTimer 2)]).2 = [] ∧
    emittedOf (runTrace (step (runTrace (TimeKeeper.mk' {} 0).1 [(60000, HostEvent.fireTimer 1)]).1
        (61000, HostEvent.disposeCall)).1
        [(120000, HostEvent.fireTimer 2), (120500, HostEvent.visibility false),
         (180000, HostEvent.fireTimer 2)]).2 = [] ∧
    invokedOf (runTrace (step (runTrace (TimeKeeper.mk' {} 0).1 [(60000, HostEvent.fireTimer 1)]).1
        (61000, HostEvent.disposeCall)).1
        [(120000, HostEvent.fireTimer 2), (120500, HostEvent.visibility false),
         (180000, HostEvent.fireTimer 2)]).2 = [] :=
  C5_dispose_is_final {} 0 [(60000, HostEvent.fireTimer 1)] 61000
    [(120000, HostEvent.fireTimer 2), (120500, HostEvent.visibility false),
     (180000, HostEvent.fireTimer 2)] (by decide)

lemma emit_emittedOf (e : EventName) (p : Payload) (s : TimeKeeper) :
    emittedOf (TimeKeeper.emit e p s).2 = [(e, p)] := by
  simp [TimeKeeper.emit, emittedOf, List.filterMap_map, Function.comp]

lemma filterMap_invoked (e : EventName) (p : Payload) (ls : List Nat) :
    invokedOf (ls.map (fun l => Effect.invoked l e p)) = ls.map (fun l => (l, e, p)) := by
  induction ls with
  | nil => rfl
  | cons a t ih =>
      simp [invokedOf] at ih ⊢
      exact ih

lemma emit_invokedOf (e : EventName) (p : Payload) (s : TimeKeeper) :
    invokedOf (TimeKeeper.emit e p s).2 = (s.listeners.get e).map (fun l => (l, e, p)) := by
  have h := filterMap_invoked e p (s.listeners.get e)
  simp [TimeKeeper.emit, invokedOf, List.filterMap_cons] at h ⊢
  exact h

lemma emit_restartsIn (e : EventName) (p : Payload) (s : TimeKeeper) :
    restartsIn (TimeKeeper.emit e p s).2 = 0 := by
  simp [TimeKeeper.emit, restartsIn, List.filter_map]

lemma emit_armedDelays (e : EventName) (p : Payload) (s : TimeKeeper) :
    armedDelays (TimeKeeper.emit e p s).2 = [] := by
  simp [TimeKeeper.emit, armedDelays, List.filterMap_map, Function.comp]

lemma clearPending_trace (s : TimeKeeper) :
    emittedOf (TimeKeeper.clearPending s).2 = [] ∧
    invokedOf (TimeKeeper.clearPending s).2 = [] ∧
    restartsIn (TimeKeeper.clearPending s).2 = 0 ∧
    armedDelays (TimeKeeper.clearPending s).2 = [] := by
  rcases htt : s.tickTimer with _ | h
  · simp [TimeKeeper.clearPending, htt, emittedOf, invokedOf, restartsIn, armedDelays]
  · by_cases h0 : h = 0 <;>
      simp [TimeKeeper.clearPending, htt, h0, emittedOf, invokedOf, restartsIn, armedDelays]

lemma restart_snd (now : Nat) (s : TimeKeeper) :
    (TimeKeeper.restart now s).2 =
      Effect.restarted ::
        ((TimeKeeper.clearPending s).2 ++
          (TimeKeeper.scheduleNextTick now (TimeKeeper.clearPending s).1).2) := rfl

lemma restart_trace (now : Nat) (s : TimeKeeper) :
    emittedOf (TimeKeeper.restart now s).2 = [] ∧
    invokedOf (TimeKeeper.restart now s).2 = [] ∧
    restartsIn (TimeKeeper.restart now s).2 = 1 ∧
    (armedDelays (TimeKeeper.restart now s).2).length = 1 := by
  obtain ⟨he, hi, hr, ha⟩ := clearPending_trace s
  rw [restart_snd]
  refine ⟨?_, ?_, ?_, ?_⟩
  · simp [emittedOf, List.filterMap_append] at he ⊢
    exact ⟨he, by simp [TimeKeeper.scheduleNextTick, emittedOf]⟩
  · simp [invokedOf, List.filterMap_append] at hi ⊢
    exact ⟨hi, by simp [TimeKeeper.scheduleNextTick, invokedOf]⟩
  · simp [restartsIn, List.filter_append] at hr ⊢
    exact ⟨hr, by simp [TimeKeeper.scheduleNextTick, restartsIn]⟩
  · simp [armedDelays, List.filterMap_append, TimeKeeper.scheduleNextTick] at ha ⊢
    exact ha

lemma restart_lastTick (now : Nat) (s : TimeKeeper) :
    (TimeKeeper.restart now s).1.lastTick = s.lastTick := by
  rw [restart_fst, scheduleNextTick_state]
  show (TimeKeeper.clearPending s).1.lastTick = s.lastTick
  rw [clearPending_state]

/-- C7: `scheduleNextTick` arms its timer with delay 1000 ms for align
`none`, `1000 - now % 1000` for `second`, `60000 - now % 60000` for
`minute`; at an exact minute boundary the minute-aligned delay is 60000 ms. -/
theorem C7_scheduled_delay (now : Nat) (s : TimeKeeper) :
    (TimeKeeper.scheduleNextTick now s).2 =
      [Effect.armed s.nextHandle (TimeKeeper.tickDelay s.align now)] ∧
    TimeKeeper.tickDelay AlignMode.none now = 1000 ∧
    TimeKeeper.tickDelay AlignMode.second now = 1000 - now % 1000 ∧
    TimeKeeper.tickDelay AlignMode.minute now = 60000 - now % 60000 ∧
    (now % 60000 = 0 → TimeKeeper.tickDelay AlignMode.minute now = 60000) := by
  refine ⟨rfl, rfl, rfl, rfl, fun h => ?_⟩
  simp [TimeKeeper.tickDelay, h]

/-- C7 witness: a freshly constructed minute-aligned keeper asked to
schedule at the exact boundary 120000 ms arms a 60000 ms timer. -/
theorem C7_scheduled_delay_witness :
    TimeKeeper.tickDelay AlignMode.minute 120000 = 60000 ∧
    (TimeKeeper.scheduleNextTick 120000 (TimeKeeper.mk' {} 0).1).2 =
      [Effect.armed 2 60000] :=
  ⟨(C7_scheduled_delay 120000 (TimeKeeper.mk' {} 0).1).2.2.2.2 (by decide),
   ((C7_scheduled_delay 120000 (TimeKeeper.mk' {} 0).1).1).trans (by decide)⟩

/-- A second-aligned keeper that accepted its first tick at instant 1000
(so `lastTick = 1000`), has listener 7 subscribed to `second`, and has its
next timer (handle 2) armed to fire at instant 2000 — exactly one second
later, i.e. perfectly on time for align = second. -/
def secondAlignKeeper : TimeKeeper :=
  { timezone := "Asia/Seoul"
    align := AlignMode.second
    visibilityAware := true
    driftThresholdMs := 250
    listeners := { second := [7], minute := [], hour := [], timezoneChange := [] }
    tickTimer := some 2
    lastTick := 1000
    liveTimers := [2]
    nextHandle := 3
    visibilityAttached := true }

/-- C1: the expected instant used by the drift check is
`lastTick + 60000` regardless of the align mode — for align = second the
source still adds 60000 ms, not 1000 ms. Consequently a perfectly on-time
second-aligned firing (at `lastTick + 1000`, drift 0 under the claimed
formula) is rejected: nothing is emitted, `lastTick` is unchanged, and the
keeper restarts. -/
theorem C1_drift_unit_hardcoded_60000 :
    secondAlignKeeper.align = AlignMode.second ∧
    TimeKeeper.expectedInstant secondAlignKeeper = secondAlignKeeper.lastTick + 60000 ∧
    ((2000 : Int) - ((secondAlignKeeper.lastTick : Int) + 1000)).natAbs ≤
      secondAlignKeeper.driftThresholdMs ∧
    emittedOf (TimeKeeper.handleTick 2000 secondAlignKeeper).2 = [] ∧
    invokedOf (TimeKeeper.handleTick 2000 secondAlignKeeper).2 = [] ∧
    (TimeKeeper.handleTick 2000 secondAlignKeeper).1.lastTick = 1000 ∧
    restartsIn (TimeKeeper.handleTick 2000 secondAlignKeeper).2 = 1 := by
  decide

/-- C2: when `lastTick` is set and the firing instant deviates from the
expected instant by more than `driftThresholdMs` in absolute value,
`handleTick` emits nothing, invokes no listener, leaves `lastTick`
unchanged, and performs exactly one restart (arming exactly one new
timer); when the deviation is within the threshold, or on the first firing
(`lastTick` unset, i.e. 0), the tick is accepted: `lastTick := now`, an
`hour` event with the zoned instant is emitted, and no restart happens. -/
theorem C2_drift_accept_reject (now : Nat) (s : TimeKeeper) :
    (s.lastTick ≠ 0 →
      ((now : Int) - (TimeKeeper.expectedInstant s : Int)).natAbs > s.driftThresholdMs →
      emittedOf (TimeKeeper.handleTick now s).2 = [] ∧
      invokedOf (TimeKeeper.handleTick now s).2 = [] ∧
      (TimeKeeper.handleTick now s).1.lastTick = s.lastTick ∧
      restartsIn (TimeKeeper.handleTick now s).2 = 1 ∧
      (armedDelays (TimeKeeper.handleTick now s).2).length = 1) ∧
    (s.lastTick = 0 ∨
        ((now : Int) - (TimeKeeper.expectedInstant s : Int)).natAbs ≤ s.driftThresholdMs →
      (TimeKeeper.handleTick now s).1.lastTick = now ∧
      (EventName.hour, Payload.zoned now s.timezone) ∈
        emittedOf (TimeKeeper.handleTick now s).2 ∧
      restartsIn (TimeKeeper.handleTick now s).2 = 0) := by
  have hexp : ((TimeKeeper.expectedInstant s : Nat) : Int) = (s.lastTick : Int) + 60000 := by
    simp [TimeKeeper.expectedInstant]
  constructor
  · intro h0 hgt
    have hrej : rejects now s := ⟨h0, by rw [← hexp]; exact hgt⟩
    rw [handleTick_reject now s hrej]
    obtain ⟨he, hi, hr, ha⟩ := restart_trace now s
    exact ⟨he, hi, restart_lastTick now s, hr, ha⟩
  · intro hacc
    have hnrej : ¬ rejects now s := by
      rcases hacc with h0 | hle
      · rintro ⟨hne, -⟩
        exact hne h0
      · rintro ⟨-, hgt⟩
        rw [← hexp] at hgt
        omega
    rw [handleTick_accept now s hnrej]
    refine ⟨rfl, ?_, ?_⟩
    · rw [emittedOf_append, emittedOf_append, emittedOf_append]
      have hh : (EventName.hour, Payload.zoned now s.timezone) ∈
          emittedOf (TimeKeeper.emit .hour (Payload.zoned now s.timezone)
            { s with lastTick := now }).2 := by
        rw [emit_emittedOf]
        exact List.mem_singleton.mpr rfl
      simp only [List.mem_append]
      exact Or.inl (Or.inr hh)
    · rw [restartsIn_append, restartsIn_append, restartsIn_append]
      have h1 : restartsIn (if s.align = AlignMode.minute
          then (TimeKeeper.emit .minute (Payload.zoned now s.timezone)
            { s with lastTick := now }).2 else []) = 0 := by
        by_cases hm : s.align = AlignMode.minute
        · rw [if_pos hm, emit_restartsIn]
        · rw [if_neg hm]
          rfl
      have h2 : restartsIn (if s.align = AlignMode.second
          then (TimeKeeper.emit .second (Payload.zoned now s.timezone)
            { s with lastTick := now }).2 else []) = 0 := by
        by_cases hm : s.align = AlignMode.second
        · rw [if_pos hm, emit_restartsIn]
        · rw [if_neg hm]
          rfl
      rw [h1, h2, emit_restartsIn]
      simp [TimeKeeper.scheduleNextTick, restartsIn]

/-- A minute-aligned keeper mid-run: last accepted tick at 60000 ms,
listeners 4 (minute) and 5 (hour), timer handle 3 pending. -/
def minuteKeeper : TimeKeeper :=
  { timezone := "UTC"
    align := AlignMode.minute
    visibilityAware := true
    driftThresholdMs := 250
    listeners := { second := [], minute := [4], hour := [5], timezoneChange := [] }
    tickTimer := some 3
    lastTick := 60000
    liveTimers := [3]
    nextHandle := 4
    visibilityAttached := true }

/-- C2 witness: on `minuteKeeper` a firing at 120301 ms (drift 301 > 250)
is rejected with one restart, while a firing at 120200 ms (drift 200 ≤
250) is accepted and emits the hour event. -/
theorem C2_drift_accept_reject_witness :
    (emittedOf (TimeKeeper.handleTick 120301 minuteKeeper).2 = [] ∧
     invokedOf (TimeKeeper.handleTick 120301 minuteKeeper).2 = [] ∧
     (TimeKeeper.handleTick 120301 minuteKeeper).1.lastTick = minuteKeeper.lastTick ∧
     restartsIn (TimeKeeper.handleTick 120301 minuteKeeper).2 = 1 ∧
     (armedDelays (TimeKeeper.handleTick 120301 minuteKeeper).2).length = 1) ∧
    ((TimeKeeper.handleTick 120200 minuteKeeper).1.lastTick = 120200 ∧
     (EventName.hour, Payload.zoned 120200 minuteKeeper.timezone) ∈
       emittedOf (TimeKeeper.handleTick 120200 minuteKeeper).2 ∧
     restartsIn (TimeKeeper.handleTick 120200 minuteKeeper).2 = 0) :=
  ⟨(C2_drift_accept_reject 120301 minuteKeeper).1 (by decide) (by decide),
   (C2_drift_accept_reject 120200 minuteKeeper).2 (Or.inr (by decide))⟩

lemma on'_mem (e : EventName) (l : Nat) (s : TimeKeeper)
    (hm : l ∈ s.listeners.get e) : TimeKeeper.on' e l s = s := by
  show { s with listeners := s.listeners.set e (if l ∈ s.listeners.get e then s.listeners.get e else s.listeners.get e ++ [l]) } = s
  rw [if_pos hm, ListenerMap.set_get]

lemma on'_listeners_get (e : EventName) (l : Nat) (s : TimeKeeper) :
    (TimeKeeper.on' e l s).listeners.get e =
      if l ∈ s.listeners.get e then s.listeners.get e else s.listeners.get e ++ [l] := by
  show (s.listeners.set e _).get e = _
  rw [ListenerMap.get_set]

lemma mem_on'_self (e : EventName) (l : Nat) (s : TimeKeeper) :
    l ∈ (TimeKeeper.on' e l s).listeners.get e := by
  rw [on'_listeners_get]
  by_cases hm : l ∈ s.listeners.get e
  · rw [if_pos hm]
    exact hm
  · rw [if_neg hm]
    simp

lemma on'_idem (e : EventName) (l : Nat) (s : TimeKeeper) :
    TimeKeeper.on' e l (TimeKeeper.on' e l s) = TimeKeeper.on' e l s :=
  on'_mem e l (TimeKeeper.on' e l s) (mem_on'_self e l s)

lemma count_map_prodify (e : EventName) (p : Payload) (l : Nat) (ls : List Nat) :
    List.count (l, e, p) (ls.map (fun x => (x, e, p))) = List.count l ls := by
  induction ls with
  | nil => rfl
  | cons a t ih =>
      simp [List.count_cons, ih, Prod.ext_iff]

/-- C8: registering the same listener identity twice for a kind leaves a
single active registration — one matching emit invokes it exactly once —
and `off` for a listener never registered for that kind is a no-op (and,
being total, raises no error). -/
theorem C8_subscription_set_semantics (e : EventName) (l l2 : Nat) (p : Payload)
    (s : TimeKeeper) :
    TimeKeeper.on' e l (TimeKeeper.on' e l s) = TimeKeeper.on' e l s ∧
    ((s.listeners.get e).Nodup →
      List.count (l, e, p)
        (invokedOf (TimeKeeper.emit e p (TimeKeeper.on' e l (TimeKeeper.on' e l s))).2) = 1) ∧
    (l2 ∉ s.listeners.get e → TimeKeeper.off e l2 s = s) := by
  refine ⟨on'_idem e l s, ?_, ?_⟩
  · intro hnd
    rw [on'_idem e l s, emit_invokedOf, count_map_prodify, on'_listeners_get]
    by_cases hm : l ∈ s.listeners.get e
    · rw [if_pos hm]
      exact List.count_eq_one_of_mem hnd hm
    · rw [if_neg hm]
      rw [List.count_append]
      rw [List.count_eq_zero.mpr hm]
      simp
  · intro hnm
    show { s with listeners := s.listeners.set e ((s.listeners.get e).filter (· ≠ l2)) } = s
    have hf : (s.listeners.get e).filter (· ≠ l2) = s.listeners.get e := by
      apply List.filter_eq_self.mpr
      intro a ha
      simp only [ne_eq, decide_not]
      by_cases hal : a = l2
      · exact absurd (hal ▸ ha) hnm
      · simp [hal]
    rw [hf, ListenerMap.set_get]

/-- C8 witness: on a fresh keeper, double-subscribing listener 5 to
`minute` leaves one registration (one invocation per emit), and removing
the never-registered listener 9 changes nothing. -/
theorem C8_subscription_set_semantics_witness :
    TimeKeeper.on' .minute 5 (TimeKeeper.on' .minute 5 (TimeKeeper.mk' {} 0).1) =
      TimeKeeper.on' .minute 5 (TimeKeeper.mk' {} 0).1 ∧
    List.count (5, EventName.minute, Payload.zoned 0 "UTC")
      (invokedOf (TimeKeeper.emit .minute (Payload.zoned 0 "UTC")
        (TimeKeeper.on' .minute 5 (TimeKeeper.on' .minute 5 (TimeKeeper.mk' {} 0).1))).2) = 1 ∧
    TimeKeeper.off .minute 9 (TimeKeeper.mk' {} 0).1 = (TimeKeeper.mk' {} 0).1 := by
  have h := C8_subscription_set_semantics .minute 5 9 (Payload.zoned 0 "UTC") (TimeKeeper.mk' {} 0).1
  exact ⟨h.1, h.2.1 (by decide), h.2.2 (by decide)⟩

/-- C3 counterexample: with listeners 1 and 2 registered in that order and
listener 1 throwing, the dispatch loop of `emit` invokes only listener 1 —
listener 2 is never called — and the exception (thrown by 1) escapes to
`emit`'s caller instead of being isolated. -/
theorem C3_counterexample_throw_stops_dispatch :
    dispatchWithThrows (fun l => l == 1) [1, 2] = ([1], some 1) ∧
    (2 : Nat) ∉ (dispatchWithThrows (fun l => l == 1) [1, 2]).1 ∧
    (dispatchWithThrows (fun l => l == 1) [1, 2]).2 = some 1 := by
  decide

/-- C3 amended: a listener that throws during `emit` aborts the dispatch —
exactly the listeners before it plus the thrower run, none registered
after it is invoked, and the exception propagates out of `emit`. -/
theorem C3_throw_aborts_dispatch (throws : Nat → Bool) (pre post : List Nat) (t : Nat)
    (hpre : ∀ x ∈ pre, throws x = false) (ht : throws t = true) :
    dispatchWithThrows throws (pre ++ t :: post) = (pre ++ [t], some t) := by
  induction pre with
  | nil =>
      simp [dispatchWithThrows, ht]
  | cons a rest ih =>
      have ha : throws a = false := hpre a (List.mem_cons_self _ _)
      have hrest : ∀ x ∈ rest, throws x = false :=
        fun x hx => hpre x (List.mem_cons_of_mem _ hx)
      simp [dispatchWithThrows, ha, ih hrest]

/-- C3 witness: listeners [2, 1, 3] with listener 1 throwing — 2 and 1 run,
3 does not, and the exception escapes. -/
theorem C3_throw_aborts_dispatch_witness :
    dispatchWithThrows (fun l => l == 1) [2, 1, 3] = ([2, 1], some 1) :=
  C3_throw_aborts_dispatch (fun l => l == 1) [2] [3] 1 (by decide) (by decide)

/-- C6: `setTimeZone` stores the new timezone, performs exactly one
`restart()` and afterwards emits exactly one `timezoneChange` event whose
payload records the previous timezone, the new one, and the mode — the
restart strictly precedes the emission, and an omitted mode argument means
`preserve-wall-clock`. -/
theorem C6_setTimeZone_contract (tz : String) (mode : TransitionMode) (now : Nat)
    (s : TimeKeeper) :
    (TimeKeeper.setTimeZone tz mode now s).1.timezone = tz ∧
    (∃ pre post, (TimeKeeper.setTimeZone tz mode now s).2 = pre ++ post ∧
      restartsIn pre = 1 ∧ emittedOf pre = [] ∧
      emittedOf post = [(EventName.timezoneChange, Payload.tzChange s.timezone tz mode)] ∧
      restartsIn post = 0) ∧
    restartsIn (TimeKeeper.setTimeZone tz mode now s).2 = 1 ∧
    emittedOf (TimeKeeper.setTimeZone tz mode now s).2 =
      [(EventName.timezoneChange, Payload.tzChange s.timezone tz mode)] ∧
    TimeKeeper.setTimeZoneDefault tz now s = TimeKeeper.setTimeZone tz .preserveWallClock now s := by
  have hsnd : (TimeKeeper.setTimeZone tz mode now s).2 =
      (TimeKeeper.restart now { s with timezone := tz }).2 ++
        (TimeKeeper.emit .timezoneChange (Payload.tzChange s.timezone tz mode)
          (TimeKeeper.restart now { s with timezone := tz }).1).2 := rfl
  obtain ⟨hre, hri, hrr, -⟩ := restart_trace now { s with timezone := tz }
  have hee := emit_emittedOf .timezoneChange (Payload.tzChange s.timezone tz mode)
    (TimeKeeper.restart now { s with timezone := tz }).1
  have her := emit_restartsIn .timezoneChange (Payload.tzChange s.timezone tz mode)
    (TimeKeeper.restart now { s with timezone := tz }).1
  refine ⟨?_, ⟨_, _, hsnd, hrr, hre, hee, her⟩, ?_, ?_, rfl⟩
  · show (TimeKeeper.restart now { s with timezone := tz }).1.timezone = tz
    rw [restart_fst, scheduleNextTick_state]
    show (TimeKeeper.clearPending { s with timezone := tz }).1.timezone = tz
    rw [clearPending_state]
  · rw [hsnd, restartsIn_append, hrr, her]
  · rw [hsnd, emittedOf_append, hre, hee]
    rfl

/-- Rewriting the mode field of any `timezoneChange` payload carried by an
effect; all other payloads and effects are untouched. -/
def remodePayload (m : TransitionMode) : Payload → Payload
  | .tzChange a b _ => .tzChange a b m
  | p => p

def remodeEffect (m : TransitionMode) : Effect → Effect
  | .emitted e p => .emitted e (remodePayload m p)
  | .invoked l e p => .invoked l e (remodePayload m p)
  | eff => eff

/-- C9: the two transition modes are observationally identical except for
the `mode` field of the emitted `timezoneChange` payloads: the post-states
(stored timezone, pending timer, everything) coincide, and the effect
trace of one mode is the mode-field rewrite of the other's. -/
theorem C9_transition_modes_equivalent (tz : String) (m1 m2 : TransitionMode)
    (now : Nat) (s : TimeKeeper) :
    (TimeKeeper.setTimeZone tz m1 now s).1 = (TimeKeeper.setTimeZone tz m2 now s).1 ∧
    (TimeKeeper.setTimeZone tz m2 now s).2 =
      ((TimeKeeper.setTimeZone tz m1 now s).2).map (remodeEffect m2) := by
  constructor
  · rfl
  · show (TimeKeeper.restart now { s with timezone := tz }).2 ++
        (TimeKeeper.emit .timezoneChange (Payload.tzChange s.timezone tz m2)
          (TimeKeeper.restart now { s with timezone := tz }).1).2 =
      ((TimeKeeper.restart now { s with timezone := tz }).2 ++
        (TimeKeeper.emit .timezoneChange (Payload.tzChange s.timezone tz m1)
          (TimeKeeper.restart now { s with timezone := tz }).1).2).map (remodeEffect m2)
    rw [List.map_append]
    have hrest : ((TimeKeeper.restart now { s with timezone := tz }).2).map (remodeEffect m2) =
        (TimeKeeper.restart now { s with timezone := tz }).2 := by
      rw [restart_snd]
      rcases htt : ({ s with timezone := tz } : TimeKeeper).tickTimer with _ | h
      · simp [TimeKeeper.clearPending, htt, TimeKeeper.scheduleNextTick, remodeEffect]
      · by_cases h0 : h = 0 <;>
          simp [TimeKeeper.clearPending, htt, h0, TimeKeeper.scheduleNextTick, remodeEffect]
    rw [hrest]
    simp [TimeKeeper.emit, remodeEffect, remodePayload]

lemma clearPending_live_of_empty (s : TimeKeeper) (h : s.liveTimers = []) :
    (TimeKeeper.clearPending s).1.liveTimers = [] := by
  rcases htt : s.tickTimer with _ | k
  · simp [TimeKeeper.clearPending, htt, h]
  · by_cases k0 : k = 0 <;> simp [TimeKeeper.clearPending, htt, k0, h]

lemma restart_timezone (now : Nat) (s : TimeKeeper) :
    (TimeKeeper.restart now s).1.timezone = s.timezone := by
  rw [restart_fst, scheduleNextTick_state]
  show (TimeKeeper.clearPending s).1.timezone = s.timezone
  rw [clearPending_state]

lemma restart_listeners (now : Nat) (s : TimeKeeper) :
    (TimeKeeper.restart now s).1.listeners = s.listeners := by
  rw [restart_fst, scheduleNextTick_state]
  show (TimeKeeper.clearPending s).1.listeners = s.listeners
  rw [clearPending_state]

lemma restart_tickTimer (now : Nat) (s : TimeKeeper) :
    (TimeKeeper.restart now s).1.tickTimer = some s.nextHandle := by
  rw [restart_fst, scheduleNextTick_state]
  show some (TimeKeeper.clearPending s).1.nextHandle = some s.nextHandle
  rw [clearPending_state]

lemma restart_live_of_empty (now : Nat) (s : TimeKeeper) (h : s.liveTimers = []) :
    (TimeKeeper.restart now s).1.liveTimers = [s.nextHandle] := by
  rw [restart_fst, scheduleNextTick_state]
  show (TimeKeeper.clearPending s).1.liveTimers ++
      [(TimeKeeper.clearPending s).1.nextHandle] = [s.nextHandle]
  rw [clearPending_live_of_empty s h, clearPending_state s]
  rfl

lemma handleTick_accept_hour_mem (now : Nat) (s : TimeKeeper) (h : ¬ rejects now s) :
    (EventName.hour, Payload.zoned now s.timezone) ∈
      emittedOf (TimeKeeper.handleTick now s).2 := by
  rw [handleTick_accept now s h]
  rw [emittedOf_append, emittedOf_append, emittedOf_append]
  have hh : (EventName.hour, Payload.zoned now s.timezone) ∈
      emittedOf (TimeKeeper.emit .hour (Payload.zoned now s.timezone)
        { s with lastTick := now }).2 := by
    rw [emit_emittedOf]
    exact List.mem_singleton.mpr rfl
  simp only [List.mem_append]
  exact Or.inl (Or.inr hh)

/-- The run the implicit claim is about: on a disposed instance, subscribe
listener `l` to `timezoneChange` and then call `setTimeZone tz mode` at
instant `now`. -/
def reviveRun (s : TimeKeeper) (tz : String) (mode : TransitionMode) (l : Nat)
    (now : Nat) : TimeKeeper × List Effect :=
  TimeKeeper.setTimeZone tz mode now
    (TimeKeeper.on' .timezoneChange l (TimeKeeper.dispose s).1)

/-- C10: `dispose()` is not terminal — on a disposed instance (any state
satisfying the timer invariant), `setTimeZone` still stores the new
timezone, arms a fresh pending timer through `restart()`, and emits a
`timezoneChange` event to a listener registered after disposal; the armed
handle is live, and firing it at an instant the drift check accepts emits
an `hour` tick again. -/
theorem C10_dispose_not_terminal (s : TimeKeeper) (hInv : KeeperInv s) (tz : String)
    (mode : TransitionMode) (l : Nat) (now : Nat) :
    (reviveRun s tz mode l now).1.timezone = tz ∧
    (reviveRun s tz mode l now).1.liveTimers = [s.nextHandle] ∧
    (reviveRun s tz mode l now).1.tickTimer = some s.nextHandle ∧
    Effect.invoked l .timezoneChange (Payload.tzChange s.timezone tz mode) ∈
      (reviveRun s tz mode l now).2 ∧
    (∀ now2 : Nat,
      ((reviveRun s tz mode l now).1.lastTick = 0 ∨
        ((now2 : Int) - (((reviveRun s tz mode l now).1.lastTick : Int) + 60000)).natAbs ≤
          (reviveRun s tz mode l now).1.driftThresholdMs) →
      (EventName.hour, Payload.zoned now2 tz) ∈
        emittedOf (step (reviveRun s tz mode l now).1
          (now2, HostEvent.fireTimer s.nextHandle)).2) := by
  have hXlive : ({ (TimeKeeper.on' .timezoneChange l (TimeKeeper.dispose s).1) with
      timezone := tz } : TimeKeeper).liveTimers = [] := dispose_live s hInv
  have hXnh : ({ (TimeKeeper.on' .timezoneChange l (TimeKeeper.dispose s).1) with
      timezone := tz } : TimeKeeper).nextHandle = s.nextHandle := by
    show (TimeKeeper.clearPending s).1.nextHandle = s.nextHandle
    rw [clearPending_state]
  have hc1 : (reviveRun s tz mode l now).1.timezone = tz := by
    show (TimeKeeper.restart now { (TimeKeeper.on' .timezoneChange l
      (TimeKeeper.dispose s).1) with timezone := tz }).1.timezone = tz
    rw [restart_timezone]
  have hc2 : (reviveRun s tz mode l now).1.liveTimers = [s.nextHandle] := by
    show (TimeKeeper.restart now { (TimeKeeper.on' .timezoneChange l
      (TimeKeeper.dispose s).1) with timezone := tz }).1.liveTimers = [s.nextHandle]
    rw [restart_live_of_empty _ _ hXlive, hXnh]
  have hc3 : (reviveRun s tz mode l now).1.tickTimer = some s.nextHandle := by
    show (TimeKeeper.restart now { (TimeKeeper.on' .timezoneChange l
      (TimeKeeper.dispose s).1) with timezone := tz }).1.tickTimer = some s.nextHandle
    rw [restart_tickTimer, hXnh]
  refine ⟨hc1, hc2, hc3, ?_, ?_⟩
  · have htz1 : (TimeKeeper.on' .timezoneChange l (TimeKeeper.dispose s).1).timezone
        = s.timezone := by
      show (TimeKeeper.clearPending s).1.timezone = s.timezone
      rw [clearPending_state]
    have hsnd : (reviveRun s tz mode l now).2 =
        (TimeKeeper.restart now { (TimeKeeper.on' .timezoneChange l
          (TimeKeeper.dispose s).1) with timezone := tz }).2 ++
        (TimeKeeper.emit .timezoneChange
          (Payload.tzChange (TimeKeeper.on' .timezoneChange l
            (TimeKeeper.dispose s).1).timezone tz mode)
          (TimeKeeper.restart now { (TimeKeeper.on' .timezoneChange l
            (TimeKeeper.dispose s).1) with timezone := tz }).1).2 := rfl
    rw [hsnd, htz1]
    refine List.mem_append.mpr (Or.inr ?_)
    have hXl : ((TimeKeeper.restart now { (TimeKeeper.on' .timezoneChange l
        (TimeKeeper.dispose s).1) with timezone := tz }).1.listeners).get .timezoneChange
        = [l] := by
      rw [restart_listeners]
      rfl
    show Effect.invoked l .timezoneChange (Payload.tzChange s.timezone tz mode) ∈
      Effect.emitted .timezoneChange (Payload.tzChange s.timezone tz mode) ::
        (((TimeKeeper.restart now { (TimeKeeper.on' .timezoneChange l
          (TimeKeeper.dispose s).1) with timezone := tz }).1.listeners).get
            .timezoneChange).map
          (fun x => Effect.invoked x .timezoneChange (Payload.tzChange s.timezone tz mode))
    rw [hXl]
    simp
  · intro now2 hcond
    have hmem : s.nextHandle ∈ (reviveRun s tz mode l now).1.liveTimers := by
      rw [hc2]
      exact List.mem_singleton.mpr rfl
    have hstep : step (reviveRun s tz mode l now).1 (now2, HostEvent.fireTimer s.nextHandle) =
        TimeKeeper.handleTick now2 { (reviveRun s tz mode l now).1 with
          liveTimers := ((reviveRun s tz mode l now).1).liveTimers.erase s.nextHandle } := by
      simp only [step]
      rw [if_pos hmem]
    rw [hstep]
    have hnrej : ¬ rejects now2 ({ (reviveRun s tz mode l now).1 with
        liveTimers := ((reviveRun s tz mode l now).1).liveTimers.erase s.nextHandle }) := by
      rcases hcond with h0 | hle
      · rintro ⟨hne, -⟩
        exact hne h0
      · rintro ⟨-, hgt⟩
        have hgt2 : ((now2 : Int) -
            (((reviveRun s tz mode l now).1.lastTick : Int) + 60000)).natAbs >
            (reviveRun s tz mode l now).1.driftThresholdMs := hgt
        omega
    have hh := handleTick_accept_hour_mem now2 _ hnrej
    have hc1e : ({ (reviveRun s tz mode l now).1 with
        liveTimers := ((reviveRun s tz mode l now).1).liveTimers.erase s.nextHandle }
          : TimeKeeper).timezone = tz := hc1
    rw [hc1e] at hh
    exact hh

/-- C10 witness: a freshly constructed default keeper is disposed, a new
listener (11) subscribes to `timezoneChange`, and `setTimeZone "UTC"` at
instant 500 re-arms handle 2, emits the change event to listener 11, and a
subsequent firing of handle 2 at instant 60000 emits an hour tick. -/
theorem C10_dispose_not_terminal_witness :
    (reviveRun (TimeKeeper.mk' {} 0).1 "UTC" TransitionMode.preserveWallClock 11 500).1.timezone
      = "UTC" ∧
    (reviveRun (TimeKeeper.mk' {} 0).1 "UTC" TransitionMode.preserveWallClock 11 500).1.liveTimers
      = [2] ∧
    (reviveRun (TimeKeeper.mk' {} 0).1 "UTC" TransitionMode.preserveWallClock 11 500).1.tickTimer
      = some 2 ∧
    Effect.invoked 11 .timezoneChange
        (Payload.tzChange "Asia/Seoul" "UTC" TransitionMode.preserveWallClock) ∈
      (reviveRun (TimeKeeper.mk' {} 0).1 "UTC" TransitionMode.preserveWallClock 11 500).2 ∧
    (EventName.hour, Payload.zoned 60000 "UTC") ∈
      emittedOf (step
        (reviveRun (TimeKeeper.mk' {} 0).1 "UTC" TransitionMode.preserveWallClock 11 500).1
        (60000, HostEvent.fireTimer 2)).2 := by
  have h := C10_dispose_not_terminal (TimeKeeper.mk' {} 0).1
    ⟨by decide, Or.inr ⟨1, rfl, rfl, by decide⟩⟩ "UTC" TransitionMode.preserveWallClock 11 500
  exact ⟨h.1, h.2.1, h.2.2.1, h.2.2.2.1, h.2.2.2.2 60000 (Or.inl (by decide))⟩
